import Mathlib

/-! Shallow embedding of the next-swc client-reference manifest engine:
marker assets, transitions, proxy-module generation, and the two-phase
chunk-to-manifest aggregation passes from the next-build and next-core
crates. Definitions follow the Rust source; external collaborators
(filesystem paths, chunking) are modelled from their specified interface. -/

set_option maxHeartbeats 1000000

namespace NextSwc

/-- Association-list insert with replace-on-existing-key semantics,
modelling map insertion in the manifests. -/
def listInsert {α β : Type} [DecidableEq α] : List (α × β) → α → β → List (α × β)
  | [], k, v => [(k, v)]
  | (k', v') :: rest, k, v =>
    if k' = k then (k, v) :: rest else (k', v') :: listInsert rest k v

/-- Association-list lookup. -/
def listLookup {α β : Type} [DecidableEq α] : List (α × β) → α → Option β
  | [], _ => none
  | (k', v') :: rest, k => if k' = k then some v' else listLookup rest k

/-- Strip a prefix off a character list, returning the remainder when the
first argument is a prefix of the second. -/
def stripPrefixList : List Char → List Char → Option (List Char)
  | [], l => some l
  | _ :: _, [] => none
  | a :: ps, b :: qs => if a = b then stripPrefixList ps qs else none

/-- Modelled from the spec: path relativization
`root.relative_path(absolute_path) -> Option<relative_path>` of the
external filesystem layer (turbo-tasks-fs `FileSystemPath::get_path_to`,
not under src/): the path stripped of the root prefix and the following
separator, `none` when the path is not inside the root. -/
def get_path_to (root p : String) : Option String :=
  match stripPrefixList root.toList p.toList with
  | none => none
  | some rest =>
    if root = "" then some (String.mk rest)
    else
      match rest with
      | '/' :: r => some (String.mk r)
      | _ => none

/-- Scan the reversed characters of a path for an extension separator:
returns the (still reversed) characters before the final dot of the last
component, or `none` when the last component has no extension. -/
def findExtSplitRev : List Char → Option (List Char)
  | [] => none
  | c :: cs =>
    if c = '/' then none
    else if c = '.' then
      match cs with
      | [] => none
      | d :: _ => if d = '/' then none else some cs
    else findExtSplitRev cs

/-- Scan the reversed characters of a path, accumulating the extension
characters, and return the extension of the last component if any. -/
def findExtRev : List Char → List Char → Option (List Char)
  | [], _ => none
  | c :: cs, acc =>
    if c = '/' then none
    else if c = '.' then
      match cs with
      | [] => none
      | d :: _ => if d = '/' then none else some acc
    else findExtRev cs (c :: acc)

/-- Modelled from the spec: the file extension of a path's last component
(external filesystem layer, `FileSystemPath::extension`, not under src/). -/
def extensionOf (p : String) : Option String :=
  (findExtRev p.toList.reverse []).map (fun l => String.mk l)

/-- Modelled from the spec: remove the extension of a path's last
component, leaving the path unchanged when it has none. -/
def removeExtension (p : String) : String :=
  match findExtSplitRev p.toList.reverse with
  | some rest => String.mk rest.reverse
  | none => p

/-- Modelled from the spec: `FileSystemPath::with_extension` of the
external filesystem layer (not under src/): replace the extension of the
last component, removing it when the new extension is empty. -/
def withExtension (p ext : String) : String :=
  if ext = "" then removeExtension p else removeExtension p ++ "." ++ ext

/-- An asset identifier: a path together with an ordered list of string
modifiers, as used by turbopack `AssetIdent` (modelled at the interface the
source uses: `path()` and `with_modifier`). -/
structure AssetIdent where
  path : String
  modifiers : List String
deriving DecidableEq, Repr

/-- `AssetIdent::with_modifier`: append one modifier string. -/
def AssetIdent.with_modifier (i : AssetIdent) (m : String) : AssetIdent :=
  { i with modifiers := i.modifiers ++ [m] }

/-- Modelled from the spec: export introspection
`module.export_kind() -> {Esm{names, has_star_export} | CommonJs | Other}`
of the external ecmascript analyzer (turbopack `EcmascriptExports`, not
under src/). `esmExports` carries the ordered export names and the list of
wildcard re-exports. -/
inductive EcmascriptExports where
  | esmExports (exports : List String) (star_exports : List String)
  | dynamicNamespace
  | commonJs
  | value
  | noExports
deriving DecidableEq, Repr

/-- An externally compiled module (an ecmascript or css chunk-placeable
asset), reduced to the interface the source reads: its identifier and its
export surface. -/
structure Module where
  ident : AssetIdent
  exports : EcmascriptExports
deriving DecidableEq, Repr

/-- A graph asset as seen by transitions: either an (ecmascript)
chunk-placeable module, or some other asset that fails the
`resolve_from` capability downcast. -/
inductive Asset where
  | placeable (m : Module)
  | other (ident : AssetIdent)
deriving DecidableEq, Repr

/-- `EcmascriptChunkPlaceableVc::resolve_from`: the capability downcast,
succeeding exactly on chunk-placeable modules. -/
def Asset.resolvePlaceable : Asset → Option Module
  | .placeable m => some m
  | .other _ => none

/-- The identifier of an asset. -/
def Asset.ident : Asset → AssetIdent
  | .placeable m => m.ident
  | .other i => i

/-- An output chunk, reduced to the only attribute the source reads of it:
its `ident().path()` as a string. -/
structure Chunk where
  path : String
deriving DecidableEq, Repr

/-- A module id: either a string or a number (turbopack `ModuleId`; the
manifests crate has an isomorphic copy, see `convert_module_id`). -/
inductive ModuleId where
  | string (s : String)
  | number (n : Nat)
deriving DecidableEq, Repr

/-- `convert_module_id`: the conversion from the turbopack module id to
the manifests-crate module id (variant-preserving). -/
def convert_module_id : ModuleId → ModuleId
  | .string s => .string s
  | .number n => .number n

/-- Modelled from the spec: the external chunking interface
(`root_chunk`, `chunk_group`, `chunk_item_id`, and the pages-side
`entry_chunk` / `evaluated_chunk_group`), as consumed by the aggregation
passes. -/
structure ChunkingContext where
  as_root_chunk : Module → Chunk
  chunk_group : Chunk → List Chunk
  chunk_item_id : Module → ModuleId
  entry_chunk : String → Module → List Module → Chunk
  evaluated_chunk_group : Chunk → List Module → List Chunk

/-- The `EcmascriptClientReferenceAsset` marker: server identifier plus
the client- and SSR-compiled forms of the boundary module. -/
structure EcmascriptClientReferenceAsset where
  server_ident : AssetIdent
  client_asset : Module
  ssr_asset : Module
deriving DecidableEq, Repr

/-- The `CssClientReferenceAsset` marker: the client-compiled css module. -/
structure CssClientReferenceAsset where
  client_asset : Module
deriving DecidableEq, Repr

/-- The `NextDynamicEntryAsset` marker: the client entry asset. -/
structure NextDynamicEntryAsset where
  client_entry_asset : Asset
deriving DecidableEq, Repr

/-- The `NextServerComponentAsset` wrapper around a page/route entry
module. -/
structure NextServerComponentAsset where
  asset : Module
deriving DecidableEq, Repr

/-- `NextServerComponentAsset::server_path`: the inner asset's path. -/
def NextServerComponentAsset.server_path (a : NextServerComponentAsset) : String :=
  a.asset.ident.path

/-- A `ModuleAssetContext`: the four context fields the transition copies
when reconstructing the server context, plus the transition field that the
reconstruction drops (fields beyond identity are opaque here). -/
structure ModuleAssetContext where
  transitions : Nat
  compile_time_info : Nat
  module_options_context : Nat
  resolve_options_context : Nat
  transition : Option Nat
deriving DecidableEq, Repr

/-- The `EcmascriptClientReferenceProxyModuleAsset`: the synthetic node
standing in for a client component inside the server graph. -/
structure EcmascriptClientReferenceProxyModuleAsset where
  server_module_ident : AssetIdent
  server_asset_context : ModuleAssetContext
  client_module : Module
  ssr_module : Module
deriving DecidableEq, Repr

/-- An asset reference, covering the three shapes the embedded code
produces: the server-component reference, the proxy's synthetic single
reference to the ecmascript client reference marker, and opaque references
of externally compiled modules. -/
inductive AssetReference where
  | nextServerComponentRef (asset : Module)
  | singleAssetRef (target : EcmascriptClientReferenceAsset) (description : String)
  | moduleRef (tag : Nat)
deriving DecidableEq, Repr

/-- Modifier of the ecmascript client reference marker. -/
def ecmascript_client_reference_modifier : String := "ecmascript client reference"

/-- Modifier of the css client reference marker. -/
def css_client_reference_modifier : String := "css client reference"

/-- Modifier of the dynamic entry marker. -/
def dynamic_modifier : String := "dynamic"

/-- Modifier of the server component wrapper. -/
def server_component_modifier : String := "Next.js server component"

/-- Modifier of the client reference proxy module. -/
def client_proxy_modifier : String := "client proxy"

/-- Description string of the proxy's synthetic marker reference. -/
def client_reference_description : String := "client references"

/-- `EcmascriptClientReferenceAsset::ident`. -/
def EcmascriptClientReferenceAsset.ident (a : EcmascriptClientReferenceAsset) : AssetIdent :=
  a.server_ident.with_modifier ecmascript_client_reference_modifier

/-- `CssClientReferenceAsset::ident`. -/
def CssClientReferenceAsset.ident (a : CssClientReferenceAsset) : AssetIdent :=
  a.client_asset.ident.with_modifier css_client_reference_modifier

/-- `NextDynamicEntryAsset::ident`. -/
def NextDynamicEntryAsset.ident (a : NextDynamicEntryAsset) : AssetIdent :=
  a.client_entry_asset.ident.with_modifier dynamic_modifier

/-- `NextServerComponentAsset::ident`. -/
def NextServerComponentAsset.ident (a : NextServerComponentAsset) : AssetIdent :=
  a.asset.ident.with_modifier server_component_modifier

/-- `EcmascriptClientReferenceProxyModuleAsset::ident`. -/
def EcmascriptClientReferenceProxyModuleAsset.ident
    (a : EcmascriptClientReferenceProxyModuleAsset) : AssetIdent :=
  a.server_module_ident.with_modifier client_proxy_modifier

/-- `EcmascriptClientReferenceAsset::references`: empty. -/
def EcmascriptClientReferenceAsset.references
    (_ : EcmascriptClientReferenceAsset) : List AssetReference := []

/-- `CssClientReferenceAsset::references`: empty. -/
def CssClientReferenceAsset.references
    (_ : CssClientReferenceAsset) : List AssetReference := []

/-- `NextDynamicEntryAsset::references`: empty. -/
def NextDynamicEntryAsset.references
    (_ : NextDynamicEntryAsset) : List AssetReference := []

/-- `NextServerComponentAsset::references`: one
`NextServerComponentAssetReference` pointing at the inner asset. -/
def NextServerComponentAsset.references
    (a : NextServerComponentAsset) : List AssetReference :=
  [.nextServerComponentRef a.asset]

/-- Modelled from the spec: `ClientReferenceType` (defined in next-core's
client reference visitor, which is not under src/): one server→client
boundary, either an ecmascript reference (client and SSR forms) or a css
reference (client form only), wrapping the marker assets above. -/
inductive ClientReferenceType where
  | ecmascriptClientReference (r : EcmascriptClientReferenceAsset)
  | cssClientReference (r : CssClientReferenceAsset)
deriving DecidableEq, Repr

/-- Modelled from the spec: a discovered `ClientReference` (next-core's
client reference visitor, not under src/): its type plus the server
component it was discovered under, if any. -/
structure ClientReference where
  server_component : Option NextServerComponentAsset
  ty : ClientReferenceType
deriving DecidableEq, Repr

/-- `ClientReference::ty`. -/
def ClientReference.reference_ty (r : ClientReference) : ClientReferenceType := r.ty

/-- The chunks needed by one client reference type: client chunks and SSR
chunks. -/
structure ClientReferenceChunks where
  client_chunks : List Chunk
  ssr_chunks : List Chunk
deriving DecidableEq, Repr

/-- Modelled from the spec: a manifest node entry (manifests crate, not
under src/): export name, module id, chunk paths, async flag. -/
structure ManifestNodeEntry where
  name : String
  id : ModuleId
  chunks : List String
  is_async : Bool
deriving DecidableEq, Repr

/-- Modelled from the spec: a manifest node (manifests crate, not under
src/): a map from export name or manifest key to entries. -/
structure ManifestNode where
  module_exports : List (String × ManifestNodeEntry)
deriving DecidableEq, Repr

/-- The empty manifest node (`ManifestNode::default`). -/
def ManifestNode.default : ManifestNode := ⟨[]⟩

/-- Modelled from the spec: the client reference manifest (manifests
crate, not under src/): `client_modules` keyed by manifest key,
`ssr_module_mapping` keyed by client module id, and `entry_css_files`
mapping each route name to an ordered set of relative css paths. -/
structure ClientReferenceManifest where
  client_modules : ManifestNode
  ssr_module_mapping : List (ModuleId × ManifestNode)
  entry_css_files : List (String × List String)
deriving DecidableEq, Repr

/-- Modelled from the spec: the pages manifest (manifests crate, not
under src/): route → relative server chunk path. -/
structure PagesManifest where
  pages : List (String × String)
deriving DecidableEq, Repr

/-- Modelled from the spec: the build manifest (manifests crate, not
under src/): route → ordered list of relative client chunk paths. -/
structure BuildManifest where
  pages : List (String × List String)
deriving DecidableEq, Repr

/-- `get_client_reference_module_key`: the manifest key for a server path
and export name. -/
def get_client_reference_module_key (server_path export_name : String) : String :=
  if export_name = "*" then server_path
  else server_path ++ "#" ++ export_name

/-- The parallel phase of `compute_app_client_references_chunks`
(per client reference type): resolve the client chunk group, and for
ecmascript references also the SSR chunk group; css references get an
empty SSR chunk set. -/
def resolve_client_reference_chunks
    (client_chunking_context ssr_chunking_context : ChunkingContext) :
    ClientReferenceType → ClientReferenceChunks
  | .ecmascriptClientReference ecmascript_client_reference =>
    let client_entry_chunk :=
      client_chunking_context.as_root_chunk ecmascript_client_reference.client_asset
    let ssr_entry_chunk :=
      ssr_chunking_context.as_root_chunk ecmascript_client_reference.ssr_asset
    { client_chunks := client_chunking_context.chunk_group client_entry_chunk
      ssr_chunks := ssr_chunking_context.chunk_group ssr_entry_chunk }
  | .cssClientReference css_client_reference =>
    let client_entry_chunk :=
      client_chunking_context.as_root_chunk css_client_reference.client_asset
    { client_chunks := client_chunking_context.chunk_group client_entry_chunk
      ssr_chunks := [] }

/-- The sequential manifest fold of `compute_app_client_references_chunks`
(per client reference type): push the resolved chunks into the global
chunk list and, for ecmascript references, insert the per-export and
wildcard entries into `client_modules` and `ssr_module_mapping`. -/
def process_client_reference_ty
    (client_chunking_context ssr_chunking_context : ChunkingContext)
    (client_root node_root : String) (ty : ClientReferenceType)
    (chunks : ClientReferenceChunks) (manifest : ClientReferenceManifest)
    (all_chunks : List Chunk) : ClientReferenceManifest × List Chunk :=
  match ty with
  | .ecmascriptClientReference ecmascript_client_reference =>
    let client_chunks := chunks.client_chunks
    let ssr_chunks := chunks.ssr_chunks
    let all_chunks := all_chunks ++ client_chunks ++ ssr_chunks
    let client_module_id :=
      client_chunking_context.chunk_item_id ecmascript_client_reference.client_asset
    let ssr_module_id :=
      ssr_chunking_context.chunk_item_id ecmascript_client_reference.ssr_asset
    let server_path := ecmascript_client_reference.server_ident.path
    let client_chunks_paths :=
      (client_chunks.map Chunk.path).filterMap (get_path_to client_root)
    let ssr_chunks_paths :=
      (ssr_chunks.map Chunk.path).filterMap (get_path_to node_root)
    let folded :=
      match ecmascript_client_reference.client_asset.exports with
      | .esmExports exports _ =>
        exports.foldl
          (fun (acc : ManifestNode × ManifestNode) export_name =>
            ({ module_exports := listInsert acc.1.module_exports
                 (get_client_reference_module_key server_path export_name)
                 { name := export_name
                   id := convert_module_id client_module_id
                   chunks := client_chunks_paths
                   is_async := false } },
             { module_exports := listInsert acc.2.module_exports export_name
                 { name := export_name
                   id := convert_module_id ssr_module_id
                   chunks := ssr_chunks_paths
                   is_async := false } }))
          (manifest.client_modules, ManifestNode.default)
      | _ => (manifest.client_modules, ManifestNode.default)
    let client_modules : ManifestNode :=
      { module_exports := listInsert folded.1.module_exports
          (get_client_reference_module_key server_path "*")
          { name := "*"
            id := convert_module_id client_module_id
            chunks := client_chunks_paths
            is_async := false } }
    let ssr_manifest_node : ManifestNode :=
      { module_exports := listInsert folded.2.module_exports "*"
          { name := "*"
            id := convert_module_id ssr_module_id
            chunks := ssr_chunks_paths
            is_async := false } }
    ({ manifest with
         client_modules := client_modules
         ssr_module_mapping := listInsert manifest.ssr_module_mapping
           (convert_module_id client_module_id) ssr_manifest_node },
     all_chunks)
  | .cssClientReference _ =>
    (manifest, all_chunks ++ chunks.client_chunks)

/-- Extend an insertion-ordered set of paths, skipping already-present
elements. -/
def extendOrderedSet (s : List String) (xs : List String) : List String :=
  xs.foldl (fun acc x => if x ∈ acc then acc else acc ++ [x]) s

/-- The route key under which a client reference's css chunk paths are
recorded: the enclosing server component's path with its extension
removed. -/
def entry_css_key (server_component : NextServerComponentAsset) : String :=
  withExtension server_component.server_path ""

/-- The `entry_css_files` fold of `compute_app_client_references_chunks`
(per discovered client reference): for references attributable to a
server component, append the relative client chunk paths (all of them for
css references, only the css-extension ones for ecmascript references) to
that route's entry css files. -/
def process_client_reference_entry_css (client_root : String)
    (app_client_references_chunks : List (ClientReferenceType × ClientReferenceChunks))
    (manifest : ClientReferenceManifest) (app_client_reference : ClientReference) :
    Except String ClientReferenceManifest :=
  match app_client_reference.server_component with
  | none => .ok manifest
  | some server_component =>
    match listLookup app_client_references_chunks app_client_reference.ty with
    | none => .error "client reference chunks not found"
    | some client_reference_chunks =>
      let client_chunks := client_reference_chunks.client_chunks
      let entry_name := entry_css_key server_component
      let client_chunks_paths := client_chunks.map Chunk.path
      let entry_css_files := (listLookup manifest.entry_css_files entry_name).getD []
      let new_paths :=
        match app_client_reference.ty with
        | .cssClientReference _ =>
          client_chunks_paths.filterMap (get_path_to client_root)
        | .ecmascriptClientReference _ =>
          client_chunks_paths.filterMap
            (fun chunk_path =>
              if extensionOf chunk_path = some "css" then get_path_to client_root chunk_path
              else none)
      .ok { manifest with
              entry_css_files := listInsert manifest.entry_css_files entry_name
                (extendOrderedSet entry_css_files new_paths) }

/-- `compute_app_client_references_chunks`: resolve the chunks of every
client reference type (parallel phase), fold them sequentially into the
manifest and the global chunk list, then attribute css chunk paths to
routes via the discovered client references. -/
def compute_app_client_references_chunks
    (app_client_references : List ClientReference)
    (app_client_reference_tys : List ClientReferenceType)
    (client_root node_root : String)
    (client_chunking_context ssr_chunking_context : ChunkingContext)
    (client_reference_manifest : ClientReferenceManifest)
    (all_chunks : List Chunk) :
    Except String
      (ClientReferenceManifest × List Chunk ×
        List (ClientReferenceType × ClientReferenceChunks)) :=
  let app_client_references_chunks :=
    app_client_reference_tys.map
      (fun ty =>
        (ty, resolve_client_reference_chunks client_chunking_context ssr_chunking_context ty))
  let folded :=
    app_client_references_chunks.foldl
      (fun acc p =>
        process_client_reference_ty client_chunking_context ssr_chunking_context
          client_root node_root p.1 p.2 acc.1 acc.2)
      (client_reference_manifest, all_chunks)
  (app_client_references.foldlM
      (fun m r => process_client_reference_entry_css client_root app_client_references_chunks m r)
      folded.1).map
    (fun m => (m, folded.2, app_client_references_chunks))

/-- A page entry: pathname plus the SSR and client compiled forms. -/
structure PageEntry where
  pathname : String
  ssr_asset : Module
  client_asset : Module
deriving DecidableEq, Repr

/-- The page entries of a build, with the runtime entries shared by all
SSR (resp. client) entry chunks. -/
structure PageEntries where
  entries : List PageEntry
  ssr_runtime_entries : List Module
  client_runtime_entries : List Module

/-- The client-chunk loop body of `compute_page_entries_chunks`: push the
chunk into the global chunk list and, when it relativizes into the
build-manifest directory, append its relative path to the route's
build-manifest entry. -/
def page_client_chunk_step (build_manifest_dir_path : String)
    (acc : List String × List Chunk) (chunk : Chunk) : List String × List Chunk :=
  let acc_chunks := acc.2 ++ [chunk]
  match get_path_to build_manifest_dir_path chunk.path with
  | some asset_path => (acc.1 ++ [asset_path], acc_chunks)
  | none => (acc.1, acc_chunks)

/-- One step of `compute_page_entries_chunks`: build the SSR entry chunk
and record its relative path in the pages manifest, build the client
chunk group and record its relative paths in the build manifest, pushing
every chunk into the global chunk list. -/
def compute_page_entry_chunks
    (client_chunking_context ssr_chunking_context : ChunkingContext)
    (node_root pages_manifest_dir_path build_manifest_dir_path : String)
    (ssr_runtime_entries client_runtime_entries : List Module)
    (st : PagesManifest × BuildManifest × List Chunk) (page_entry : PageEntry) :
    PagesManifest × BuildManifest × List Chunk :=
  let pathname := page_entry.pathname
  let ssr_entry_chunk := ssr_chunking_context.entry_chunk
    (node_root ++ "/server/pages/" ++ pathname ++ ".js")
    page_entry.ssr_asset ssr_runtime_entries
  let all_chunks := st.2.2 ++ [ssr_entry_chunk]
  let pages_manifest :=
    match get_path_to pages_manifest_dir_path ssr_entry_chunk.path with
    | some asset_path => PagesManifest.mk (listInsert st.1.pages pathname asset_path)
    | none => st.1
  let client_entry_chunk := client_chunking_context.as_root_chunk page_entry.client_asset
  let client_chunks :=
    client_chunking_context.evaluated_chunk_group client_entry_chunk client_runtime_entries
  let build_manifest_pages_entry := (listLookup st.2.1.pages pathname).getD []
  let looped := client_chunks.foldl (page_client_chunk_step build_manifest_dir_path)
    (build_manifest_pages_entry, all_chunks)
  (pages_manifest, BuildManifest.mk (listInsert st.2.1.pages pathname looped.1), looped.2)

/-- `compute_page_entries_chunks`: fold every page entry into the pages
manifest, the build manifest and the global chunk list. -/
def compute_page_entries_chunks (page_entries : PageEntries)
    (client_chunking_context ssr_chunking_context : ChunkingContext)
    (node_root pages_manifest_dir_path build_manifest_dir_path : String)
    (pages_manifest : PagesManifest) (build_manifest : BuildManifest)
    (all_chunks : List Chunk) : PagesManifest × BuildManifest × List Chunk :=
  page_entries.entries.foldl
    (compute_page_entry_chunks client_chunking_context ssr_chunking_context
      node_root pages_manifest_dir_path build_manifest_dir_path
      page_entries.ssr_runtime_entries page_entries.client_runtime_entries)
    (pages_manifest, build_manifest, all_chunks)

/-- Modelled from the spec: `StringifyJs` of the external ecmascript
utils (not under src/), reduced to quote-wrapping; escaping of special
characters inside the path is not modelled. -/
def stringify_js (s : String) : String := "\"" ++ s ++ "\""

/-- The fixed preamble of the generated proxy module: import the proxy
factory, construct the proxy from the server module path, and destructure
the two sentinel fields plus the default export. -/
def proxy_code_preamble (server_module_path : String) : String :=
  "import \x7b createProxy \x7d from \x27next/dist/build/webpack/loaders/next-flight-loader/module-proxy\x27\n\n" ++
  "const proxy = createProxy(" ++ stringify_js server_module_path ++ ")\n\n" ++
  "// Accessing the __esModule property and exporting $$typeof are required here.\n" ++
  "// The __esModule getter forces the proxy target to create the default export\n" ++
  "// and the $$typeof value is for rendering logic to determine if the module\n" ++
  "// is a client boundary.\n" ++
  "const \x7b __esModule, $$typeof \x7d = proxy;\n" ++
  "const __default__ = proxy.default;\n"

/-- The snippet emitted for the `default` export (also the whole body for
CommonJs modules): the two sentinels plus the default binding. -/
def proxy_code_default_snippet : String :=
  "export \x7b __esModule, $$typeof \x7d;\nexport default __default__;\n"

/-- The snippet emitted for a named export: a fresh alias reading the
named property off the proxy, re-exported under the original name. -/
def proxy_code_named_snippet (cnt : Nat) (named : String) : String :=
  "const e" ++ toString cnt ++ " = proxy[\"" ++ named ++ "\"];\n" ++
  "export \x7b e" ++ toString cnt ++ " as " ++ named ++ " \x7d;\n"

/-- The export-loop of the proxy generator over an ESM export list,
returning the emitted code and the final alias counter (the counter is
advanced only by named exports). -/
def proxy_code_esm_exports (exports : List String) : String × Nat :=
  exports.foldl
    (fun (acc : String × Nat) export_name =>
      if export_name = "default" then
        (acc.1 ++ proxy_code_default_snippet, acc.2)
      else
        (acc.1 ++ proxy_code_named_snippet acc.2 export_name, acc.2 + 1))
    ("", 0)

/-- The user-facing error reported for a wildcard re-export at a client
boundary. -/
def star_export_error : String :=
  "It\x27s currently unsupported to use \"export *\" in a client boundary. Please use named exports instead."

/-- The internal invariant error for an export shape the generator does
not understand. -/
def unsupported_exports_error : String := "unsupported exports type"

/-- The code-generation part of
`EcmascriptClientReferenceProxyModuleAsset::proxy_module_asset`: emit the
preamble, then the per-export bindings according to the client module's
export kind, failing on wildcard re-exports and on unsupported export
kinds. -/
def proxy_module_code (server_module_path : String)
    (client_exports : EcmascriptExports) : Except String String :=
  let preamble := proxy_code_preamble server_module_path
  match client_exports with
  | .esmExports exports star_exports =>
    let body := (proxy_code_esm_exports exports).1
    if star_exports.isEmpty then .ok (preamble ++ body)
    else .error star_export_error
  | .commonJs => .ok (preamble ++ proxy_code_default_snippet)
  | _ => .error unsupported_exports_error

/-- `EcmascriptClientReferenceProxyModuleAsset::proxy_module_asset`:
generate the proxy source, feed it as a virtual asset through the server
asset context's processing entry point (`process`, an external
collaborator passed as a function), and downcast the result to an
ecmascript module. -/
def proxy_module_asset
    (process : ModuleAssetContext → String → String → Asset)
    (this : EcmascriptClientReferenceProxyModuleAsset) : Except String Module :=
  match proxy_module_code this.server_module_ident.path this.client_module.exports with
  | .error e => .error e
  | .ok code =>
    let proxy_asset := process this.server_asset_context
      (this.server_module_ident.path ++ "/proxy.ts") code
    match proxy_asset.resolvePlaceable with
    | none => .error "proxy asset is not an ecmascript module"
    | some m => .ok m

/-- `EcmascriptClientReferenceProxyModuleAsset::references`: the compiled
proxy module's own references (via `module_references`, an external
collaborator passed as a function) plus one synthetic single-asset
reference to the `EcmascriptClientReferenceAsset` marker. -/
def proxy_references
    (process : ModuleAssetContext → String → String → Asset)
    (module_references : Module → List AssetReference)
    (this : EcmascriptClientReferenceProxyModuleAsset) :
    Except String (List AssetReference) :=
  match proxy_module_asset process this with
  | .error e => .error e
  | .ok pm =>
    .ok (module_references pm ++
      [.singleAssetRef
        { server_ident := this.server_module_ident
          client_asset := this.client_module
          ssr_asset := this.ssr_module }
        client_reference_description])

/-- The `NextEcmascriptClientReferenceTransition`: the client and SSR
context transitions, each modelled as the function taking an asset to its
recompiled form. -/
structure NextEcmascriptClientReferenceTransition where
  client_transition : Asset → Asset
  ssr_transition : Asset → Asset

/-- `NextEcmascriptClientReferenceTransition::process`: compile the asset
under the client and SSR transitions, fail if either result is not
ecmascript chunk placeable, and otherwise return the proxy node carrying
both compiled modules, built over the server context with the current
transition stripped. -/
def NextEcmascriptClientReferenceTransition.process
    (this : NextEcmascriptClientReferenceTransition)
    (asset : Asset) (context : ModuleAssetContext) :
    Except String EcmascriptClientReferenceProxyModuleAsset :=
  let client_asset := this.client_transition asset
  let ssr_asset := this.ssr_transition asset
  match client_asset.resolvePlaceable with
  | none => .error "client asset is not ecmascript chunk placeable"
  | some client_module =>
    match ssr_asset.resolvePlaceable with
    | none => .error "SSR asset is not ecmascript chunk placeable"
    | some ssr_module =>
      let server_context : ModuleAssetContext :=
        { transitions := context.transitions
          compile_time_info := context.compile_time_info
          module_options_context := context.module_options_context
          resolve_options_context := context.resolve_options_context
          transition := none }
      .ok { server_module_ident := asset.ident
            server_asset_context := server_context
            client_module := client_module
            ssr_module := ssr_module }

/-- Helper in chopped form of the specified round-trip recovery: the
characters after the first hash character. -/
def afterFirstHash : List Char → List Char
  | [] => []
  | c :: cs => if c = '#' then cs else afterFirstHash cs

/-- Definition following the specified round-trip recovery of an export
name from a manifest key: split the key on the first hash character and
take what follows; a key with no hash character denotes the wildcard
export. -/
def specRecoverExportName (key : String) : String :=
  if '#' ∈ key.toList then String.mk (afterFirstHash key.toList) else "*"

/-- Concrete fixture: a client component module exporting `default`. -/
def fixture_module : Module :=
  { ident := { path := "app/comp.tsx", modifiers := [] },
    exports := .esmExports ["default"] [] }

/-- Concrete fixture: a client component module exporting `default`
together with a wildcard re-export. -/
def fixture_star_module : Module :=
  { ident := { path := "app/comp.tsx", modifiers := [] },
    exports := .esmExports ["default"] ["lib"] }

/-- Concrete fixture: a module asset context carrying a transition. -/
def fixture_context : ModuleAssetContext :=
  { transitions := 0, compile_time_info := 0, module_options_context := 0,
    resolve_options_context := 0, transition := some 1 }

/-- Concrete fixture: the transition-stripped variant of
`fixture_context`. -/
def fixture_context_stripped : ModuleAssetContext :=
  { transitions := 0, compile_time_info := 0, module_options_context := 0,
    resolve_options_context := 0, transition := none }

/-- Concrete fixture: a proxy module node whose client module carries a
wildcard re-export. -/
def fixture_star_proxy : EcmascriptClientReferenceProxyModuleAsset :=
  { server_module_ident := { path := "app/comp.tsx", modifiers := [] },
    server_asset_context := fixture_context_stripped,
    client_module := fixture_star_module,
    ssr_module := fixture_module }

/-- Concrete fixture: a processing entry point returning a
non-ecmascript asset. -/
def fixture_process (_ : ModuleAssetContext) (_ _ : String) : Asset :=
  Asset.other { path := "x", modifiers := [] }

/-- Concrete fixture: a client component module exporting `default` and
`foo`. -/
def fixture_client_module : Module :=
  { ident := { path := "app/comp.tsx", modifiers := ["client"] },
    exports := .esmExports ["default", "foo"] [] }

/-- Concrete fixture: a client-side chunking context with module id `3`
and a single client chunk per group. -/
def fixture_client_chunking : ChunkingContext :=
  { as_root_chunk := fun _ => { path := "root/static/b.js" },
    chunk_group := fun c => [c],
    chunk_item_id := fun _ => .number 3,
    entry_chunk := fun p _ _ => { path := p },
    evaluated_chunk_group := fun c _ => [c] }

/-- Concrete fixture: an SSR-side chunking context with module id `7`
and a single SSR chunk per group. -/
def fixture_ssr_chunking : ChunkingContext :=
  { as_root_chunk := fun _ => { path := "node/chunks/a.js" },
    chunk_group := fun c => [c],
    chunk_item_id := fun _ => .number 7,
    entry_chunk := fun p _ _ => { path := p },
    evaluated_chunk_group := fun c _ => [c] }

/-- Concrete fixture: an ecmascript client reference boundary for
`fixture_client_module`. -/
def fixture_ecr : EcmascriptClientReferenceAsset :=
  { server_ident := { path := "app/comp.tsx", modifiers := [] },
    client_asset := fixture_client_module,
    ssr_asset := fixture_module }

/-- Concrete fixture: resolved chunks for `fixture_ecr`: one client and
one SSR chunk. -/
def fixture_chunks : ClientReferenceChunks :=
  { client_chunks := [{ path := "root/static/b.js" }],
    ssr_chunks := [{ path := "node/chunks/a.js" }] }

/-- Concrete fixture: the empty client reference manifest. -/
def fixture_manifest : ClientReferenceManifest :=
  { client_modules := ManifestNode.default, ssr_module_mapping := [],
    entry_css_files := [] }

/-- Concrete fixture: the server component wrapping `fixture_module`. -/
def fixture_server_component : NextServerComponentAsset :=
  { asset := fixture_module }

/-- Concrete fixture: a client chunk group holding one css chunk and one
js chunk. -/
def fixture_mixed_chunks : ClientReferenceChunks :=
  { client_chunks := [{ path := "root/static/c.css" }, { path := "root/static/b.js" }],
    ssr_chunks := [] }

/-- Concrete fixture: the ecmascript client reference of `fixture_ecr`
attributed to `fixture_server_component`. -/
def fixture_ref : ClientReference :=
  { server_component := some fixture_server_component,
    ty := .ecmascriptClientReference fixture_ecr }

/-- Concrete fixture: the resolved chunks map pairing `fixture_ref`'s
type with `fixture_mixed_chunks`. -/
def fixture_chunks_map : List (ClientReferenceType × ClientReferenceChunks) :=
  [(.ecmascriptClientReference fixture_ecr, fixture_mixed_chunks)]

/-- Concrete fixture: the manifest after attributing the css chunk of
`fixture_mixed_chunks` to the route of `fixture_server_component`. -/
def fixture_manifest_css : ClientReferenceManifest :=
  { client_modules := ManifestNode.default, ssr_module_mapping := [],
    entry_css_files := [("app/comp", ["static/c.css"])] }

/-- Concrete fixture: a page entry for the pathname `about`. -/
def fixture_page_entry : PageEntry :=
  { pathname := "about", ssr_asset := fixture_module,
    client_asset := fixture_client_module }

/-- Concrete fixture: a client component module with CommonJs export
semantics. -/
def fixture_cjs_module : Module :=
  { ident := { path := "app/cjs.tsx", modifiers := ["client"] },
    exports := .commonJs }

/-- Concrete fixture: an ecmascript client reference boundary whose
client module has CommonJs export semantics. -/
def fixture_cjs_ecr : EcmascriptClientReferenceAsset :=
  { server_ident := { path := "app/cjs.tsx", modifiers := [] },
    client_asset := fixture_cjs_module,
    ssr_asset := fixture_module }

/-! Theorems. -/

theorem listLookup_listInsert_self {α β : Type} [DecidableEq α]
    (m : List (α × β)) (k : α) (v : β) :
    listLookup (listInsert m k v) k = some v := by
  induction m with
  | nil => simp [listInsert, listLookup]
  | cons hd tl ih =>
    obtain ⟨k', v'⟩ := hd
    by_cases h : k' = k
    · simp [listInsert, listLookup, h]
    · simp [listInsert, listLookup, h, ih]

theorem listLookup_listInsert_ne {α β : Type} [DecidableEq α]
    (m : List (α × β)) (k k' : α) (v : β) (h : k ≠ k') :
    listLookup (listInsert m k v) k' = listLookup m k' := by
  induction m with
  | nil => simp [listInsert, listLookup, h]
  | cons hd tl ih =>
    obtain ⟨ka, va⟩ := hd
    by_cases hk : ka = k
    · subst hk
      simp [listInsert, listLookup, h]
    · by_cases hk' : ka = k'
      · simp [listInsert, listLookup, hk, hk', Ne.symm h]
      · simp [listInsert, listLookup, hk, hk', ih]

theorem string_append_toList (s t : String) :
    (s ++ t).toList = s.toList ++ t.toList := by
  simp [String.toList, String.data_append]

theorem afterFirstHash_append (l r : List Char) (h : '#' ∉ l) :
    afterFirstHash (l ++ '#' :: r) = r := by
  induction l with
  | nil => simp [afterFirstHash]
  | cons c cs ih =>
    simp only [List.mem_cons, not_or] at h
    simp [afterFirstHash, Ne.symm h.1, ih h.2]

theorem get_client_reference_module_key_inj (p a b : String)
    (h : get_client_reference_module_key p a = get_client_reference_module_key p b) :
    a = b := by
  unfold get_client_reference_module_key at h
  by_cases ha : a = "*" <;> by_cases hb : b = "*"
  · rw [ha, hb]
  · exfalso
    rw [if_pos ha, if_neg hb] at h
    have hl := congrArg String.length h
    rw [String.length_append, String.length_append] at hl
    have h1 : ("#" : String).length = 1 := rfl
    omega
  · exfalso
    rw [if_neg ha, if_pos hb] at h
    have hl := congrArg String.length h
    rw [String.length_append, String.length_append] at hl
    have h1 : ("#" : String).length = 1 := rfl
    omega
  · rw [if_neg ha, if_neg hb] at h
    have hl := congrArg String.toList h
    rw [string_append_toList, string_append_toList,
      string_append_toList, string_append_toList] at hl
    exact String.ext (List.append_cancel_left hl)

/-- C4, counterexample: for the server path `"a#b"` and export name
`"c"`, splitting the generated key on the first hash character recovers
`"b#c"`, not the original export name `"c"`; the specified round-trip
fails on paths that contain a hash character. -/
theorem c4_roundtrip_counterexample :
    specRecoverExportName (get_client_reference_module_key "a#b" "c") = "b#c" ∧
    specRecoverExportName (get_client_reference_module_key "a#b" "c") ≠ "c" := by
  constructor <;> decide

/-- C4 (amended): for every path `p` and export name `n`,
`manifest_key(p, "*") = p` and, for `n ≠ "*"`,
`manifest_key(p, n) = p ++ "#" ++ n`; and for keys generated from a path
containing no hash character, the export name is recoverable by splitting
the key on the first hash character (recovering `"*"` when the key
contains none). -/
theorem c4_manifest_key (p n : String) (hn : n ≠ "*") (hp : '#' ∉ p.toList) :
    get_client_reference_module_key p "*" = p ∧
    get_client_reference_module_key p n = p ++ "#" ++ n ∧
    specRecoverExportName (get_client_reference_module_key p "*") = "*" ∧
    specRecoverExportName (get_client_reference_module_key p n) = n := by
  refine ⟨by simp [get_client_reference_module_key],
    by simp [get_client_reference_module_key, hn], ?_, ?_⟩
  · have hkey : get_client_reference_module_key p "*" = p := by
      simp [get_client_reference_module_key]
    rw [hkey, specRecoverExportName, if_neg hp]
  · rw [get_client_reference_module_key, if_neg hn, specRecoverExportName]
    have htl : (p ++ "#" ++ n).toList = p.toList ++ '#' :: n.toList := by
      rw [string_append_toList, string_append_toList]
      simp
    rw [htl]
    have hmem : '#' ∈ p.toList ++ '#' :: n.toList := by simp
    rw [if_pos hmem, afterFirstHash_append p.toList n.toList hp]
    rfl

/-- C4, witness: the amended key algebra at the path `"app/page"` and
export name `"foo"`. -/
theorem c4_manifest_key_witness :
    get_client_reference_module_key "app/page" "*" = "app/page" ∧
    get_client_reference_module_key "app/page" "foo" = "app/page" ++ "#" ++ "foo" ∧
    specRecoverExportName (get_client_reference_module_key "app/page" "*") = "*" ∧
    specRecoverExportName (get_client_reference_module_key "app/page" "foo") = "foo" :=
  c4_manifest_key "app/page" "foo" (by decide) (by decide)

/-- C9: every marker node's identity is the origin module's identity
extended with that marker's fixed modifier string, the proxy node's
identity is the original server module's identity extended with the
`"client proxy"` modifier, and extending with a modifier keeps the path
and appends the modifier to the modifier list. -/
theorem c9_marker_and_proxy_idents (e : EcmascriptClientReferenceAsset)
    (c : CssClientReferenceAsset) (d : NextDynamicEntryAsset)
    (s : NextServerComponentAsset) (p : EcmascriptClientReferenceProxyModuleAsset) :
    e.ident = e.server_ident.with_modifier "ecmascript client reference" ∧
    c.ident = c.client_asset.ident.with_modifier "css client reference" ∧
    d.ident = d.client_entry_asset.ident.with_modifier "dynamic" ∧
    s.ident = s.asset.ident.with_modifier "Next.js server component" ∧
    p.ident = p.server_module_ident.with_modifier "client proxy" ∧
    ∀ (i : AssetIdent) (m : String),
      (i.with_modifier m).path = i.path ∧
      (i.with_modifier m).modifiers = i.modifiers ++ [m] :=
  ⟨rfl, rfl, rfl, rfl, rfl, fun _ _ => ⟨rfl, rfl⟩⟩

/-- C6, counterexample: a `NextServerComponentAsset` wrapper has a
non-empty reference list (it references its inner module), contradicting
the claim that all pure markers, the server-component wrapper included,
have empty outgoing references. -/
theorem c6_server_component_references_counterexample :
    NextServerComponentAsset.references
      { asset := { ident := { path := "app/page.tsx", modifiers := [] },
                   exports := .esmExports ["default"] [] } } ≠ [] := by
  decide

/-- C6 (amended): the css client reference, dynamic entry and ecmascript
client reference markers have empty outgoing references; the
server-component wrapper instead has exactly one outgoing reference,
pointing at its inner module. -/
theorem c6_marker_references (c : CssClientReferenceAsset)
    (d : NextDynamicEntryAsset) (e : EcmascriptClientReferenceAsset)
    (s : NextServerComponentAsset) :
    c.references = [] ∧ d.references = [] ∧ e.references = [] ∧
    s.references = [AssetReference.nextServerComponentRef s.asset] :=
  ⟨rfl, rfl, rfl, rfl⟩

/-- C2: for a css client reference type, the resolution phase returns an
empty `ssr_chunks` set, and the sequential fold only appends the client
chunks to the global chunk list, leaving the manifest untouched. -/
theorem c2_css_client_reference (cc sc : ChunkingContext)
    (client_root node_root : String) (css : CssClientReferenceAsset)
    (ch : ClientReferenceChunks) (manifest : ClientReferenceManifest)
    (all_chunks : List Chunk) :
    (resolve_client_reference_chunks cc sc (.cssClientReference css)).ssr_chunks = [] ∧
    process_client_reference_ty cc sc client_root node_root
      (.cssClientReference css) ch manifest all_chunks
      = (manifest, all_chunks ++ ch.client_chunks) :=
  ⟨rfl, rfl⟩

/-- C8: the ecmascript client reference transition fails when the
client-compiled result is not ecmascript chunk placeable, fails when the
SSR-compiled result is not, and otherwise returns the proxy node carrying
both compiled modules over the transition-stripped server context, with
the original module's identifier. -/
theorem c8_transition_process (t : NextEcmascriptClientReferenceTransition)
    (asset : Asset) (context : ModuleAssetContext) :
    ((t.client_transition asset).resolvePlaceable = none →
      t.process asset context = .error "client asset is not ecmascript chunk placeable") ∧
    (∀ cm, (t.client_transition asset).resolvePlaceable = some cm →
      (t.ssr_transition asset).resolvePlaceable = none →
      t.process asset context = .error "SSR asset is not ecmascript chunk placeable") ∧
    (∀ cm sm, (t.client_transition asset).resolvePlaceable = some cm →
      (t.ssr_transition asset).resolvePlaceable = some sm →
      t.process asset context = .ok
        { server_module_ident := asset.ident
          server_asset_context :=
            { transitions := context.transitions
              compile_time_info := context.compile_time_info
              module_options_context := context.module_options_context
              resolve_options_context := context.resolve_options_context
              transition := none }
          client_module := cm
          ssr_module := sm }) := by
  refine ⟨?_, ?_, ?_⟩
  · intro h
    simp [NextEcmascriptClientReferenceTransition.process, h]
  · intro cm hc hs
    simp [NextEcmascriptClientReferenceTransition.process, hc, hs]
  · intro cm sm hc hs
    simp [NextEcmascriptClientReferenceTransition.process, hc, hs]

/-- C8, witness: processing a placeable asset under identity transitions
yields the proxy node with the stripped server context. -/
theorem c8_transition_process_witness :
    NextEcmascriptClientReferenceTransition.process
      { client_transition := fun a => a, ssr_transition := fun a => a }
      (.placeable fixture_module) fixture_context
      = .ok
        { server_module_ident := fixture_module.ident,
          server_asset_context := fixture_context_stripped,
          client_module := fixture_module,
          ssr_module := fixture_module } :=
  (c8_transition_process
    { client_transition := fun a => a, ssr_transition := fun a => a }
    (.placeable fixture_module) fixture_context).2.2
    fixture_module fixture_module rfl rfl

/-- C3: for a client module whose ESM export list carries a wildcard
re-export (non-empty star exports), proxy code generation fails with the
user-facing wildcard re-export error, so the proxy module is never
produced and the proxy's reference computation — the only place the
manifest-feeding ecmascript client reference marker is emitted — fails
identically, leaving no manifest entries for that boundary. -/
theorem c3_star_export_fails
    (process : ModuleAssetContext → String → String → Asset)
    (module_references : Module → List AssetReference)
    (this' : EcmascriptClientReferenceProxyModuleAsset)
    (exports star_exports : List String)
    (hexp : this'.client_module.exports = .esmExports exports star_exports)
    (hstar : star_exports ≠ []) :
    proxy_module_code this'.server_module_ident.path this'.client_module.exports
      = .error star_export_error ∧
    proxy_module_asset process this' = .error star_export_error ∧
    proxy_references process module_references this' = .error star_export_error := by
  have hb : star_exports.isEmpty = false := by
    cases star_exports with
    | nil => exact absurd rfl hstar
    | cons a l => rfl
  have hcode : proxy_module_code this'.server_module_ident.path
      this'.client_module.exports = .error star_export_error := by
    rw [hexp]
    simp [proxy_module_code, hb]
  refine ⟨hcode, ?_, ?_⟩
  · simp [proxy_module_asset, hcode]
  · simp [proxy_references, proxy_module_asset, hcode]

/-- C3, witness: a client module exporting `default` together with a
wildcard re-export makes proxy generation and the proxy reference
computation fail with the wildcard re-export error. -/
theorem c3_star_export_fails_witness :
    proxy_module_code fixture_star_proxy.server_module_ident.path
      fixture_star_proxy.client_module.exports = .error star_export_error ∧
    proxy_module_asset fixture_process fixture_star_proxy
      = .error star_export_error ∧
    proxy_references fixture_process (fun _ => []) fixture_star_proxy
      = .error star_export_error :=
  c3_star_export_fails fixture_process (fun _ => []) fixture_star_proxy
    ["default"] ["lib"] rfl (by decide)

theorem listLookup_foldl_insert_of_ne {α β γ : Type} [DecidableEq α]
    (f : γ → α) (g : γ → β) (l : List γ) :
    ∀ (m : List (α × β)) (k : α), (∀ x ∈ l, f x ≠ k) →
      listLookup (l.foldl (fun acc x => listInsert acc (f x) (g x)) m) k
        = listLookup m k := by
  induction l with
  | nil => intro m k _; rfl
  | cons x xs ih =>
    intro m k h
    rw [List.foldl_cons, ih _ k (fun y hy => h y (List.mem_cons_of_mem x hy))]
    exact listLookup_listInsert_ne m (f x) k (g x) (h x (List.mem_cons_self x xs))

theorem listLookup_foldl_insert_mem {α β γ : Type} [DecidableEq α]
    (f : γ → α) (g : γ → β) (hf : ∀ x y, f x = f y → x = y) (l : List γ) :
    ∀ (m : List (α × β)) (n : γ), n ∈ l →
      listLookup (l.foldl (fun acc x => listInsert acc (f x) (g x)) m) (f n)
        = some (g n) := by
  induction l with
  | nil => intro m n hn; cases hn
  | cons x xs ih =>
    intro m n hn
    rw [List.foldl_cons]
    by_cases hmem : n ∈ xs
    · exact ih _ n hmem
    · have hx : n = x := by
        cases hn with
        | head => rfl
        | tail _ h => exact absurd h hmem
      subst hx
      have h' : ∀ y ∈ xs, f y ≠ f n := fun y hy hfy => hmem (hf y n hfy ▸ hy)
      rw [listLookup_foldl_insert_of_ne f g xs (listInsert m (f n) (g n)) (f n) h']
      exact listLookup_listInsert_self m (f n) (g n)

theorem ecma_exports_fold_split (exports : List String) (server_path : String)
    (client_id ssr_id : ModuleId) (cpaths spaths : List String) :
    ∀ (A B : ManifestNode),
      exports.foldl
        (fun (acc : ManifestNode × ManifestNode) export_name =>
          ({ module_exports := listInsert acc.1.module_exports
               (get_client_reference_module_key server_path export_name)
               { name := export_name, id := client_id,
                 chunks := cpaths, is_async := false } },
           { module_exports := listInsert acc.2.module_exports export_name
               { name := export_name, id := ssr_id,
                 chunks := spaths, is_async := false } }))
        (A, B)
      = (⟨exports.foldl (fun acc n => listInsert acc
             (get_client_reference_module_key server_path n)
             { name := n, id := client_id, chunks := cpaths, is_async := false })
           A.module_exports⟩,
         ⟨exports.foldl (fun acc n => listInsert acc n
             { name := n, id := ssr_id, chunks := spaths, is_async := false })
           B.module_exports⟩) := by
  induction exports with
  | nil => intro A B; rfl
  | cons x xs ih =>
    intro A B
    rw [List.foldl_cons, List.foldl_cons, List.foldl_cons]
    exact ih _ _

theorem process_ecma_eq (cc sc : ChunkingContext) (client_root node_root : String)
    (ecr : EcmascriptClientReferenceAsset) (ch : ClientReferenceChunks)
    (manifest : ClientReferenceManifest) (all_chunks : List Chunk)
    (exports star_exports : List String)
    (hexp : ecr.client_asset.exports = .esmExports exports star_exports) :
    process_client_reference_ty cc sc client_root node_root
      (.ecmascriptClientReference ecr) ch manifest all_chunks
    = ({ manifest with
          client_modules := ⟨listInsert
            (exports.foldl (fun acc n => listInsert acc
               (get_client_reference_module_key ecr.server_ident.path n)
               { name := n, id := convert_module_id (cc.chunk_item_id ecr.client_asset),
                 chunks := (ch.client_chunks.map Chunk.path).filterMap (get_path_to client_root),
                 is_async := false })
              manifest.client_modules.module_exports)
            (get_client_reference_module_key ecr.server_ident.path "*")
            { name := "*", id := convert_module_id (cc.chunk_item_id ecr.client_asset),
              chunks := (ch.client_chunks.map Chunk.path).filterMap (get_path_to client_root),
              is_async := false }⟩,
          ssr_module_mapping := listInsert manifest.ssr_module_mapping
            (convert_module_id (cc.chunk_item_id ecr.client_asset))
            ⟨listInsert
              (exports.foldl (fun acc n => listInsert acc n
                 { name := n, id := convert_module_id (sc.chunk_item_id ecr.ssr_asset),
                   chunks := (ch.ssr_chunks.map Chunk.path).filterMap (get_path_to node_root),
                   is_async := false }) [])
              "*"
              { name := "*", id := convert_module_id (sc.chunk_item_id ecr.ssr_asset),
                chunks := (ch.ssr_chunks.map Chunk.path).filterMap (get_path_to node_root),
                is_async := false }⟩ },
       all_chunks ++ ch.client_chunks ++ ch.ssr_chunks) := by
  simp only [process_client_reference_ty, hexp]
  rw [ecma_exports_fold_split]
  rfl

/-- C1: for every ecmascript client reference type folded into the
manifest — regardless of the client module's export kind —
`client_modules` holds the wildcard entry under
`manifest_key(server_path, "*")` and the `ssr_module_mapping` node under
the client module id holds the wildcard entry under `"*"`; and whenever
the client module's export list is ESM-analyzable, `client_modules`
additionally holds an entry under `manifest_key(server_path, n)` for
every export name `n`, carrying the client module id and the relative
client chunk paths, mirrored in that node by an entry for the same name
carrying the SSR module id and the relative SSR chunk paths. -/
theorem c1_ecmascript_manifest_entries (cc sc : ChunkingContext)
    (client_root node_root : String) (ecr : EcmascriptClientReferenceAsset)
    (ch : ClientReferenceChunks) (manifest : ClientReferenceManifest)
    (all_chunks : List Chunk) :
    ∃ node : ManifestNode,
      listLookup (process_client_reference_ty cc sc client_root node_root
          (.ecmascriptClientReference ecr) ch manifest all_chunks).1.ssr_module_mapping
        (convert_module_id (cc.chunk_item_id ecr.client_asset)) = some node ∧
      listLookup (process_client_reference_ty cc sc client_root node_root
          (.ecmascriptClientReference ecr) ch manifest all_chunks).1.client_modules.module_exports
        (get_client_reference_module_key ecr.server_ident.path "*")
        = some { name := "*",
                 id := convert_module_id (cc.chunk_item_id ecr.client_asset),
                 chunks := (ch.client_chunks.map Chunk.path).filterMap (get_path_to client_root),
                 is_async := false } ∧
      listLookup node.module_exports "*"
        = some { name := "*",
                 id := convert_module_id (sc.chunk_item_id ecr.ssr_asset),
                 chunks := (ch.ssr_chunks.map Chunk.path).filterMap (get_path_to node_root),
                 is_async := false } ∧
      ∀ exps stars : List String,
        ecr.client_asset.exports = .esmExports exps stars →
        ∀ n ∈ exps,
          listLookup (process_client_reference_ty cc sc client_root node_root
              (.ecmascriptClientReference ecr) ch manifest all_chunks).1.client_modules.module_exports
            (get_client_reference_module_key ecr.server_ident.path n)
            = some { name := n,
                     id := convert_module_id (cc.chunk_item_id ecr.client_asset),
                     chunks := (ch.client_chunks.map Chunk.path).filterMap (get_path_to client_root),
                     is_async := false } ∧
          listLookup node.module_exports n
            = some { name := n,
                     id := convert_module_id (sc.chunk_item_id ecr.ssr_asset),
                     chunks := (ch.ssr_chunks.map Chunk.path).filterMap (get_path_to node_root),
                     is_async := false } := by
  cases hE : ecr.client_asset.exports with
  | esmExports exports star_exports =>
    rw [process_ecma_eq cc sc client_root node_root ecr ch manifest all_chunks
      exports star_exports hE]
    refine ⟨_, listLookup_listInsert_self _ _ _, listLookup_listInsert_self _ _ _,
      listLookup_listInsert_self _ _ _, ?_⟩
    intro exps stars hexp n hn
    injection hexp with h1 h2
    subst h1
    constructor
    · by_cases hstar : n = "*"
      · subst hstar
        exact listLookup_listInsert_self _ _ _
      · have hne : get_client_reference_module_key ecr.server_ident.path "*"
            ≠ get_client_reference_module_key ecr.server_ident.path n :=
          fun h => hstar (get_client_reference_module_key_inj _ _ _ h).symm
        rw [listLookup_listInsert_ne _ _ _ _ hne]
        exact listLookup_foldl_insert_mem
          (fun m => get_client_reference_module_key ecr.server_ident.path m)
          (fun m => { name := m,
                      id := convert_module_id (cc.chunk_item_id ecr.client_asset),
                      chunks := (ch.client_chunks.map Chunk.path).filterMap (get_path_to client_root),
                      is_async := false })
          (fun x y h => get_client_reference_module_key_inj _ x y h)
          exports manifest.client_modules.module_exports n hn
    · by_cases hstar : n = "*"
      · subst hstar
        exact listLookup_listInsert_self _ _ _
      · have hne : ("*" : String) ≠ n := fun h => hstar h.symm
        rw [listLookup_listInsert_ne _ _ _ _ hne]
        exact listLookup_foldl_insert_mem
          (fun m => m)
          (fun m => ({ name := m,
                       id := convert_module_id (sc.chunk_item_id ecr.ssr_asset),
                       chunks := (ch.ssr_chunks.map Chunk.path).filterMap (get_path_to node_root),
                       is_async := false } : ManifestNodeEntry))
          (fun x y h => h)
          exports [] n hn
  | dynamicNamespace =>
    simp only [process_client_reference_ty, hE]
    refine ⟨_, listLookup_listInsert_self _ _ _, listLookup_listInsert_self _ _ _,
      listLookup_listInsert_self _ _ _, ?_⟩
    intro exps stars hexp
    cases hexp
  | commonJs =>
    simp only [process_client_reference_ty, hE]
    refine ⟨_, listLookup_listInsert_self _ _ _, listLookup_listInsert_self _ _ _,
      listLookup_listInsert_self _ _ _, ?_⟩
    intro exps stars hexp
    cases hexp
  | value =>
    simp only [process_client_reference_ty, hE]
    refine ⟨_, listLookup_listInsert_self _ _ _, listLookup_listInsert_self _ _ _,
      listLookup_listInsert_self _ _ _, ?_⟩
    intro exps stars hexp
    cases hexp
  | noExports =>
    simp only [process_client_reference_ty, hE]
    refine ⟨_, listLookup_listInsert_self _ _ _, listLookup_listInsert_self _ _ _,
      listLookup_listInsert_self _ _ _, ?_⟩
    intro exps stars hexp
    cases hexp

/-- C1, witness: folding the fixture ecmascript reference into the empty
manifest produces the client entries with module id `3` and chunk path
`static/b.js`, mirrored by SSR entries with module id `7` and chunk path
`chunks/a.js`, wildcard entries included; and folding the CommonJs
client module fixture still produces both wildcard entries. -/
theorem c1_ecmascript_manifest_entries_witness :
    (∃ node : ManifestNode,
      listLookup (process_client_reference_ty fixture_client_chunking fixture_ssr_chunking
          "root" "node" (.ecmascriptClientReference fixture_ecr) fixture_chunks
          fixture_manifest []).1.ssr_module_mapping (.number 3) = some node ∧
      listLookup (process_client_reference_ty fixture_client_chunking fixture_ssr_chunking
          "root" "node" (.ecmascriptClientReference fixture_ecr) fixture_chunks
          fixture_manifest []).1.client_modules.module_exports
        (get_client_reference_module_key "app/comp.tsx" "*")
        = some { name := "*", id := .number 3, chunks := ["static/b.js"],
                 is_async := false } ∧
      listLookup node.module_exports "*"
        = some { name := "*", id := .number 7, chunks := ["chunks/a.js"],
                 is_async := false } ∧
      ∀ n ∈ ["default", "foo"],
        listLookup (process_client_reference_ty fixture_client_chunking fixture_ssr_chunking
            "root" "node" (.ecmascriptClientReference fixture_ecr) fixture_chunks
            fixture_manifest []).1.client_modules.module_exports
          (get_client_reference_module_key "app/comp.tsx" n)
          = some { name := n, id := .number 3, chunks := ["static/b.js"],
                   is_async := false } ∧
        listLookup node.module_exports n
          = some { name := n, id := .number 7, chunks := ["chunks/a.js"],
                   is_async := false }) ∧
    (∃ node : ManifestNode,
      listLookup (process_client_reference_ty fixture_client_chunking fixture_ssr_chunking
          "root" "node" (.ecmascriptClientReference fixture_cjs_ecr) fixture_chunks
          fixture_manifest []).1.ssr_module_mapping (.number 3) = some node ∧
      listLookup (process_client_reference_ty fixture_client_chunking fixture_ssr_chunking
          "root" "node" (.ecmascriptClientReference fixture_cjs_ecr) fixture_chunks
          fixture_manifest []).1.client_modules.module_exports
        (get_client_reference_module_key "app/cjs.tsx" "*")
        = some { name := "*", id := .number 3, chunks := ["static/b.js"],
                 is_async := false } ∧
      listLookup node.module_exports "*"
        = some { name := "*", id := .number 7, chunks := ["chunks/a.js"],
                 is_async := false }) := by
  constructor
  · obtain ⟨node, h1, h2, h3, h4⟩ := c1_ecmascript_manifest_entries
      fixture_client_chunking fixture_ssr_chunking "root" "node" fixture_ecr
      fixture_chunks fixture_manifest []
    exact ⟨node, h1, h2, h3, fun n hn => h4 ["default", "foo"] [] rfl n hn⟩
  · obtain ⟨node, h1, h2, h3, _⟩ := c1_ecmascript_manifest_entries
      fixture_client_chunking fixture_ssr_chunking "root" "node" fixture_cjs_ecr
      fixture_chunks fixture_manifest []
    exact ⟨node, h1, h2, h3⟩

theorem if_option_eq_some {α : Type} (c : Prop) [Decidable c] (x : Option α) (q : α) :
    (if c then x else none) = some q ↔ c ∧ x = some q := by
  by_cases h : c <;> simp [h]

theorem mem_extendOrderedSet (xs : List String) :
    ∀ (s : List String) (x : String),
      x ∈ extendOrderedSet s xs ↔ x ∈ s ∨ x ∈ xs := by
  induction xs with
  | nil => intro s x; simp [extendOrderedSet]
  | cons y ys ih =>
    intro s x
    rw [show extendOrderedSet s (y :: ys)
        = extendOrderedSet (if y ∈ s then s else s ++ [y]) ys from rfl, ih]
    by_cases hy : y ∈ s
    · have hxy : x = y → x ∈ s := fun h => h ▸ hy
      simp only [if_pos hy, List.mem_cons]
      tauto
    · simp only [if_neg hy, List.mem_append, List.mem_singleton, List.mem_cons]
      tauto

theorem process_entry_css_eq (client_root : String)
    (chunks_map : List (ClientReferenceType × ClientReferenceChunks))
    (manifest : ClientReferenceManifest) (r : ClientReference)
    (server_component : NextServerComponentAsset) (ch : ClientReferenceChunks)
    (hsc : r.server_component = some server_component)
    (hch : listLookup chunks_map r.ty = some ch) :
    process_client_reference_entry_css client_root chunks_map manifest r
    = .ok { manifest with
              entry_css_files := listInsert manifest.entry_css_files
                (entry_css_key server_component)
                (extendOrderedSet
                  ((listLookup manifest.entry_css_files
                     (entry_css_key server_component)).getD [])
                  (match r.ty with
                   | .cssClientReference _ =>
                     (ch.client_chunks.map Chunk.path).filterMap (get_path_to client_root)
                   | .ecmascriptClientReference _ =>
                     (ch.client_chunks.map Chunk.path).filterMap
                       (fun chunk_path =>
                         if extensionOf chunk_path = some "css" then
                           get_path_to client_root chunk_path
                         else none))) } := by
  simp only [process_client_reference_entry_css, hsc, hch]

/-- C5: for a client reference attributable to a route, the route's
`entry_css_files` entry after the fold holds exactly its previous
members together with, for a css reference, every client chunk path
relativized to the client root and, for an ecmascript reference, only
the relativized client chunk paths whose extension is `css` — chunks
with any other extension are never added. -/
theorem c5_entry_css_files (client_root : String)
    (chunks_map : List (ClientReferenceType × ClientReferenceChunks))
    (manifest : ClientReferenceManifest) (r : ClientReference)
    (server_component : NextServerComponentAsset) (ch : ClientReferenceChunks)
    (m' : ClientReferenceManifest)
    (hsc : r.server_component = some server_component)
    (hch : listLookup chunks_map r.ty = some ch)
    (hok : process_client_reference_entry_css client_root chunks_map manifest r
           = .ok m') :
    (∀ css, r.ty = .cssClientReference css →
      ∀ q, q ∈ (listLookup m'.entry_css_files (entry_css_key server_component)).getD []
        ↔ q ∈ (listLookup manifest.entry_css_files
                 (entry_css_key server_component)).getD []
          ∨ ∃ c, c ∈ ch.client_chunks ∧ get_path_to client_root c.path = some q) ∧
    (∀ ecr, r.ty = .ecmascriptClientReference ecr →
      ∀ q, q ∈ (listLookup m'.entry_css_files (entry_css_key server_component)).getD []
        ↔ q ∈ (listLookup manifest.entry_css_files
                 (entry_css_key server_component)).getD []
          ∨ ∃ c, c ∈ ch.client_chunks ∧ extensionOf c.path = some "css" ∧
              get_path_to client_root c.path = some q) := by
  rw [process_entry_css_eq client_root chunks_map manifest r server_component ch
    hsc hch] at hok
  injection hok with hok
  subst hok
  constructor
  · intro css hty q
    simp only [hty, listLookup_listInsert_self, Option.getD_some,
      mem_extendOrderedSet, List.mem_filterMap, List.mem_map]
    constructor
    · rintro (h | ⟨a, ⟨c, hc, rfl⟩, ha⟩)
      · exact Or.inl h
      · exact Or.inr ⟨c, hc, ha⟩
    · rintro (h | ⟨c, hc, hq⟩)
      · exact Or.inl h
      · exact Or.inr ⟨c.path, ⟨c, hc, rfl⟩, hq⟩
  · intro ecr hty q
    simp only [hty, listLookup_listInsert_self, Option.getD_some,
      mem_extendOrderedSet, List.mem_filterMap, List.mem_map, if_option_eq_some]
    constructor
    · rintro (h | ⟨a, ⟨c, hc, rfl⟩, hext, ha⟩)
      · exact Or.inl h
      · exact Or.inr ⟨c, hc, hext, ha⟩
    · rintro (h | ⟨c, hc, hext, hq⟩)
      · exact Or.inl h
      · exact Or.inr ⟨c.path, ⟨c, hc, rfl⟩, hext, hq⟩

/-- C5, witness: attributing the fixture ecmascript reference, whose
chunk group holds one css and one js chunk, records exactly the css
chunk's relative path for the route. -/
theorem c5_entry_css_files_witness :
    process_client_reference_entry_css "root" fixture_chunks_map fixture_manifest
      fixture_ref = .ok fixture_manifest_css ∧
    (∀ q, q ∈ (listLookup fixture_manifest_css.entry_css_files
                (entry_css_key fixture_server_component)).getD []
      ↔ q ∈ (listLookup fixture_manifest.entry_css_files
               (entry_css_key fixture_server_component)).getD []
        ∨ ∃ c, c ∈ fixture_mixed_chunks.client_chunks ∧
            extensionOf c.path = some "css" ∧
            get_path_to "root" c.path = some q) := by
  have hok : process_client_reference_entry_css "root" fixture_chunks_map
      fixture_manifest fixture_ref = .ok fixture_manifest_css := rfl
  exact ⟨hok,
    (c5_entry_css_files "root" fixture_chunks_map fixture_manifest fixture_ref
      fixture_server_component fixture_mixed_chunks fixture_manifest_css
      rfl (by decide) hok).2 fixture_ecr rfl⟩

theorem findExtSplitRev_append (ex : List Char)
    (hx : ∀ c ∈ ex, c ≠ '.' ∧ c ≠ '/') (d : Char) (hd : d ≠ '/') (ds : List Char) :
    findExtSplitRev (ex ++ '.' :: d :: ds) = some (d :: ds) := by
  induction ex with
  | nil => simp [findExtSplitRev, hd]
  | cons c cs ih =>
    have hc := hx c (List.mem_cons_self c cs)
    simp [findExtSplitRev, hc.1, hc.2,
      ih (fun y hy => hx y (List.mem_cons_of_mem c hy))]

theorem removeExtension_append (s e : String) (d : Char) (ds : List Char)
    (hs : s.toList.reverse = d :: ds) (hd : d ≠ '/')
    (he : ∀ c ∈ e.toList, c ≠ '.' ∧ c ≠ '/') :
    removeExtension (s ++ "." ++ e) = s := by
  have h1 : (s ++ "." ++ e).toList.reverse = e.toList.reverse ++ '.' :: d :: ds := by
    rw [string_append_toList, string_append_toList,
      List.reverse_append, List.reverse_append, hs]
    rfl
  simp only [removeExtension, h1,
    findExtSplitRev_append e.toList.reverse
      (fun c hc => he c (List.mem_reverse.mp hc)) d hd ds]
  rw [← hs, List.reverse_reverse]
  rfl

/-- C10: the key under which a client reference's css chunk paths are
recorded is the enclosing server component's server path with its file
extension removed, so two server component files that differ only in
extension share the same `entry_css_files` key; the fold changes no key
other than that one. -/
theorem c10_entry_css_key (s e1 e2 : String) (d : Char) (ds : List Char)
    (sc1 sc2 : NextServerComponentAsset)
    (hs : s.toList.reverse = d :: ds) (hd : d ≠ '/')
    (he1 : ∀ c ∈ e1.toList, c ≠ '.' ∧ c ≠ '/')
    (he2 : ∀ c ∈ e2.toList, c ≠ '.' ∧ c ≠ '/')
    (hp1 : sc1.server_path = s ++ "." ++ e1)
    (hp2 : sc2.server_path = s ++ "." ++ e2) :
    entry_css_key sc1 = s ∧ entry_css_key sc2 = s ∧
    (∀ (client_root : String)
        (chunks_map : List (ClientReferenceType × ClientReferenceChunks))
        (manifest : ClientReferenceManifest) (r : ClientReference)
        (ch : ClientReferenceChunks) (m' : ClientReferenceManifest) (k : String),
      r.server_component = some sc1 →
      listLookup chunks_map r.ty = some ch →
      process_client_reference_entry_css client_root chunks_map manifest r = .ok m' →
      k ≠ entry_css_key sc1 →
      listLookup m'.entry_css_files k = listLookup manifest.entry_css_files k) := by
  have h1 : entry_css_key sc1 = s := by
    rw [entry_css_key, hp1, withExtension, if_pos rfl]
    exact removeExtension_append s e1 d ds hs hd he1
  have h2 : entry_css_key sc2 = s := by
    rw [entry_css_key, hp2, withExtension, if_pos rfl]
    exact removeExtension_append s e2 d ds hs hd he2
  refine ⟨h1, h2, ?_⟩
  intro client_root chunks_map manifest r ch m' k hsc hch hok hk
  rw [process_entry_css_eq client_root chunks_map manifest r sc1 ch hsc hch] at hok
  injection hok with hok
  subst hok
  exact listLookup_listInsert_ne _ _ _ _ (Ne.symm hk)

theorem page_client_chunk_step_foldl (dir : String) (cs : List Chunk) :
    ∀ (entry : List String) (chunks : List Chunk),
      cs.foldl (page_client_chunk_step dir) (entry, chunks)
      = (entry ++ (cs.map Chunk.path).filterMap (get_path_to dir), chunks ++ cs) := by
  induction cs with
  | nil => intro entry chunks; simp
  | cons c cs ih =>
    intro entry chunks
    rw [List.foldl_cons]
    cases h : get_path_to dir c.path with
    | some p => simp [page_client_chunk_step, h, ih]
    | none => simp [page_client_chunk_step, h, ih]

/-- C7: aggregating a page entry from empty manifests produces exactly
one pages-manifest entry mapping its pathname to the SSR entry chunk's
path relative to the pages-manifest directory, exactly one
build-manifest entry mapping the pathname to the client chunk-group
paths relative to the build-manifest directory in chunk-group order, and
pushes the SSR entry chunk and every client chunk into the global chunk
list. -/
theorem c7_page_entry_chunks (cc sc : ChunkingContext)
    (node_root pages_manifest_dir_path build_manifest_dir_path : String)
    (e : PageEntry) (ssr_rt client_rt : List Module) (sp : String)
    (hrel : get_path_to pages_manifest_dir_path
        (sc.entry_chunk (node_root ++ "/server/pages/" ++ e.pathname ++ ".js")
          e.ssr_asset ssr_rt).path = some sp) :
    compute_page_entries_chunks ⟨[e], ssr_rt, client_rt⟩ cc sc node_root
      pages_manifest_dir_path build_manifest_dir_path ⟨[]⟩ ⟨[]⟩ []
    = (⟨[(e.pathname, sp)]⟩,
       ⟨[(e.pathname,
          ((cc.evaluated_chunk_group (cc.as_root_chunk e.client_asset)
             client_rt).map Chunk.path).filterMap
            (get_path_to build_manifest_dir_path))]⟩,
       sc.entry_chunk (node_root ++ "/server/pages/" ++ e.pathname ++ ".js")
           e.ssr_asset ssr_rt
         :: cc.evaluated_chunk_group (cc.as_root_chunk e.client_asset) client_rt) := by
  simp only [compute_page_entries_chunks, List.foldl_cons, List.foldl_nil,
    compute_page_entry_chunks, hrel, page_client_chunk_step_foldl]
  rfl

/-- C7, witness: the page entry for pathname `about` yields the
pages-manifest entry `about ↦ pages/about.js`, the build-manifest entry
`about ↦ [static/b.js]`, and both chunks in the global chunk list. -/
theorem c7_page_entry_chunks_witness :
    compute_page_entries_chunks ⟨[fixture_page_entry], [], []⟩
      fixture_client_chunking fixture_ssr_chunking "node" "node/server" "root"
      ⟨[]⟩ ⟨[]⟩ []
    = (⟨[("about", "pages/about.js")]⟩,
       ⟨[("about", ["static/b.js"])]⟩,
       [{ path := "node/server/pages/about.js" }, { path := "root/static/b.js" }]) :=
  c7_page_entry_chunks fixture_client_chunking fixture_ssr_chunking
    "node" "node/server" "root" fixture_page_entry [] [] "pages/about.js" rfl

/-- C10, witness: two server component files `app/comp.tsx` and
`app/comp.js`, differing only in extension, are both recorded under the
`entry_css_files` key `app/comp`. -/
theorem c10_entry_css_key_witness :
    entry_css_key fixture_server_component = "app/comp" ∧
    entry_css_key { asset := { ident := { path := "app/comp.js", modifiers := [] },
                               exports := .commonJs } } = "app/comp" := by
  have h := c10_entry_css_key "app/comp" "tsx" "js" 'p' "moc/ppa".toList
    fixture_server_component
    { asset := { ident := { path := "app/comp.js", modifiers := [] },
                 exports := .commonJs } }
    (by decide) (by decide) (by decide) (by decide) rfl rfl
  exact ⟨h.1, h.2.1⟩

end NextSwc
